import Mathlib

/-
Verification of the page-batch PDF extraction pipeline (src/main.py).

The Python source is shallowly embedded: the Flask endpoints
`convert_pdf_page` (/convert), `analyze_pdf_page` (/analyze) and
`analyze_pdf_full` (/analyze-full) become pure Lean functions
parameterised over their external collaborators (Google Drive download,
PyMuPDF page counting, pdf2image rasterisation, the Gemini model call and
the JSON parser), each modelled as a function returning `Except String`
to mirror Python exceptions.  JSON values are modelled by an inductive
`Json` type; HTTP responses are `(status, body)` pairs with a `Json`
body, mirroring `jsonify`.
-/

/-! ## Python string primitives -/

/-- Python whitespace: the characters matched by the regex class `\s`
(the source pattern is a `str` pattern without `re.ASCII`, so `\s` is
Unicode-aware) and stripped by `str.strip()`.  Both use CPython's
`Py_UNICODE_ISSPACE` table: TAB..CR, the separators U+001C-U+001F,
SPACE, NEL (U+0085), NBSP (U+00A0), Ogham space (U+1680), the U+2000
to U+200A spaces, line/paragraph separators (U+2028/U+2029), narrow
NBSP (U+202F), medium mathematical space (U+205F) and the ideographic
space (U+3000). -/
def pySpace (c : Char) : Bool :=
  (0x09 ≤ c.toNat && c.toNat ≤ 0x0d) || c.toNat == 0x20 ||
  (0x1c ≤ c.toNat && c.toNat ≤ 0x1f) ||
  c.toNat == 0x85 || c.toNat == 0xa0 || c.toNat == 0x1680 ||
  (0x2000 ≤ c.toNat && c.toNat ≤ 0x200a) ||
  c.toNat == 0x2028 || c.toNat == 0x2029 || c.toNat == 0x202f ||
  c.toNat == 0x205f || c.toNat == 0x3000

/-- Python `str.strip()`: remove leading and trailing (Unicode)
whitespace. -/
def pyStrip (l : List Char) : List Char :=
  ((l.dropWhile pySpace).reverse.dropWhile pySpace).reverse

/-- Python slicing `s[:n]` (by code points, as in Python). -/
def pyTake (s : String) (n : Nat) : String :=
  String.mk (s.toList.take n)

/-! ## The fence regex of `extract_json_from_response`

The source runs `re.search` with the pattern

    three backticks, (?:json)?, \s*, newline, lazy capture, newline, three backticks

We embed Python's backtracking behaviour for exactly this pattern:
the optional `json` marker is tried greedily, `\s*` is greedy with
backtracking, the capture group is lazy (shortest first), and the
overall search returns the leftmost position at which the whole
pattern matches. -/

/-- The four-character terminator: newline followed by three backticks. -/
def nlTicks : List Char := '\n' :: '`' :: '`' :: '`' :: []

/-- Lazy `([\s\S]*?)` followed by the literal newline + three backticks:
split at the first occurrence of the terminator, returning the capture
and the text after the closing fence. -/
def findStop : List Char → Option (List Char × List Char)
  | [] => none
  | c :: cs =>
    if nlTicks.isPrefixOf (c :: cs) then
      some ([], cs.drop 3)
    else
      (findStop cs).map (fun pr => (c :: pr.1, pr.2))

/-- Greedy `\s*` followed by a literal newline, with backtracking into the
lazy capture: try the newline at index `j`, `j-1`, ..., `0` (the engine
first lets `\s*` consume as much as possible). -/
def matchTailD (l : List Char) : Nat → Option (List Char × List Char)
  | 0 =>
    if l.get? 0 == some '\n' then findStop (l.drop 1) else none
  | j + 1 =>
    match (if (l.take (j + 1)).all pySpace && (l.get? (j + 1) == some '\n') then
             findStop (l.drop (j + 2))
           else none) with
    | some r => some r
    | none => matchTailD l j

/-- Match `\s*\n` then the lazy capture: the newline consumed by the
pattern must lie inside the maximal whitespace run at the front. -/
def matchWs (l : List Char) : Option (List Char × List Char) :=
  match (l.takeWhile pySpace).length with
  | 0 => none
  | k + 1 => matchTailD l k

/-- Match the whole pattern at the start of `l`, returning the capture:
three backticks, then greedily the optional `json` marker (falling back
to the empty marker if the rest fails), then `\s*\n` and the lazy
capture. -/
def matchAt (l : List Char) : Option (List Char) :=
  if ('`' :: '`' :: '`' :: []).isPrefixOf l then
    ((if ('j' :: 's' :: 'o' :: 'n' :: []).isPrefixOf (l.drop 3) then
        matchWs (l.drop 7)
      else none) <|> matchWs (l.drop 3)).map Prod.fst
  else none

/-- `re.search`: try the pattern at every position, leftmost first. -/
def searchFence : List Char → Option (List Char)
  | [] => none
  | c :: cs => matchAt (c :: cs) <|> searchFence cs

/-- `extract_json_from_response` (src/main.py lines 60-66): if the fence
pattern matches, return the stripped capture group, else return the
stripped input. -/
def extract_json_from_response (s : String) : String :=
  match searchFence s.toList with
  | some cap => String.mk (pyStrip cap)
  | none => String.mk (pyStrip s.toList)

/-! ## JSON values

Python objects produced by `json.loads` and consumed by `jsonify`. -/

/-- A JSON value (Python dict/list/str/int/bool/None as produced by
`json.loads`). -/
inductive Json where
  | null
  | bool (b : Bool)
  | num (n : Int)
  | str (s : String)
  | arr (elems : List Json)
  | obj (fields : List (String × Json))

/-- Python `type(x).__name__` for the modelled values. -/
def pyTypeName : Json → String
  | .null => "NoneType"
  | .bool _ => "bool"
  | .num _ => "int"
  | .str _ => "str"
  | .arr _ => "list"
  | .obj _ => "dict"

/-- First binding for a key in an object's field list. -/
def lookupField : List (String × Json) → String → Option Json
  | [], _ => none
  | (k, v) :: rest, key => if k = key then some v else lookupField rest key

/-- Field access on an object value (`none` on other values or missing
keys); used only to state properties of constructed response bodies. -/
def getField (j : Json) (key : String) : Option Json :=
  match j with
  | .obj kvs => lookupField kvs key
  | _ => none

/-- Two-level field access (`body["k1"]["k2"]`). -/
def getField2 (j : Json) (k1 k2 : String) : Option Json :=
  match getField j k1 with
  | some m => getField m k2
  | none => none

/-- Python `d.get(key, default)`: raises `AttributeError` when the value
is not a dict (the embedded error message abbreviates Python's
AttributeError text). -/
def pyGet (j : Json) (key : String) (dflt : Json) : Except String Json :=
  match j with
  | .obj kvs => .ok ((lookupField kvs key).getD dflt)
  | _ => .error (pyTypeName j ++ " object has no attribute get")

/-- `isinstance(x, int)` conversion: Python ints and bools (bool is a
subclass of int); everything else is rejected. -/
def jsonAsInt : Json → Option Int
  | .num n => some n
  | .bool b => some (if b then 1 else 0)
  | _ => none

/-- `jsonify` of an optional string (Python `None` becomes JSON null). -/
def optStr : Option String → Json
  | some s => .str s
  | none => .null

/-! ## Request and response plumbing -/

/-- `GEMINI_MODEL` (src/main.py line 25). -/
def GEMINI_MODEL : String := "gemini-3-pro-preview"

/-- `DPI` (src/main.py line 24). -/
def DPI : Int := 300

/-- Python falsiness of `data.get(...)` for string fields: `None` and the
empty string are falsy. -/
def pyFalsy : Option String → Bool
  | none => true
  | some s => s == ""

/-- Python `a or b` on optional strings (`data.get('geminiApiKey') or
os.environ.get('GEMINI_API_KEY')`). -/
def pyOr (a b : Option String) : Option String :=
  match a with
  | some s => if s = "" then b else some s
  | none => b

/-- `jsonify({'error': msg})`. -/
def errBody (msg : String) : Json := Json.obj [("error", .str msg)]

/-- Metadata returned by the Drive download for a resolved file
(`file_metadata.get('name')` may be absent). -/
structure FileMeta where
  name : Option String

/-- Parsed request body of `/convert`: `fileId` and `pageNumber`
(as JSON values; `none` = key absent). -/
structure ConvertReq where
  fileId : Option String
  pageNumber : Option Json

/-- Parsed request body of `/analyze`. -/
structure AnalyzeReq where
  fileId : Option String
  pageNumber : Option Json
  geminiApiKey : Option String

/-- Parsed request body of `/analyze-full`. -/
structure FullReq where
  fileId : Option String
  geminiApiKey : Option String
  startPage : Option Json
  endPage : Option Json

/-! ## `/convert` (src/main.py lines 145-203) -/

/-- `convert_pdf_page`: validate `fileId` and `pageNumber`, download,
rasterise the single page, and return the PNG (Base64 encoding is the
collaborator `encode`).  A download or rasterisation exception becomes a
500 via the handler's `except`; an empty image list becomes the 404. -/
def convert_pdf_page {Pdf Img : Type} (req : ConvertReq)
    (download : String → Except String (Pdf × FileMeta))
    (convert : Pdf → Int → Except String (List Img))
    (encode : Img → String) : Nat × Json :=
  if pyFalsy req.fileId then (400, errBody "fileId is required")
  else
    match jsonAsInt (req.pageNumber.getD (Json.num 1)) with
    | none => (400, errBody "pageNumber must be a positive integer")
    | some p =>
      if p < 1 then (400, errBody "pageNumber must be a positive integer")
      else
        match download (req.fileId.getD "") with
        | .error e => (500, errBody e)
        | .ok (pdf, meta) =>
          match convert pdf p with
          | .error e => (500, errBody e)
          | .ok [] => (404, errBody ("Page " ++ toString p ++ " not found in PDF"))
          | .ok (img :: _) =>
            (200, Json.obj [("success", .bool true),
              ("base64Image", .str (encode img)),
              ("mimeType", .str "image/png"),
              ("pageNumber", .num p),
              ("fileName", optStr meta.name)])

/-! ## `/analyze` (src/main.py lines 206-359) -/

/-- The six `analyzed_data.get` reads of the result construction
(src/main.py lines 329-353), in source evaluation order; any of them
raises `AttributeError` when the parsed value is not a dict. -/
def collectFields (analyzed : Json) : Except String (Json × Json × Json × Json × Json × Json) := do
  let pt ← pyGet analyzed "page_type" (.str "unknown")
  let sono ← pyGet analyzed "page_type" (.str "")
  let title ← pyGet analyzed "page_title" (.str "")
  let sd ← pyGet analyzed "structured_data" (.obj [])
  let tbls ← pyGet analyzed "tables" (.arr [])
  let af ← pyGet analyzed "additional_fields" (.obj [])
  return (pt, sono, title, sd, tbls, af)

/-- The `result` dict of `/analyze` (src/main.py lines 329-353). -/
def mkAnalyzeBody (name : Option String) (fid : String) (p total : Int)
    (flds : Json × Json × Json × Json × Json × Json) (now : String) : Json :=
  Json.obj [("success", .bool true),
    ("metadata", .obj [("source_file", optStr name),
      ("file_id", .str fid),
      ("page_number", .num p),
      ("total_pages", .num total),
      ("page_type", flds.1),
      ("processed_at", .str (now ++ "Z")),
      ("gemini_model", .str GEMINI_MODEL),
      ("dpi", .num DPI)]),
    ("page_identification", .obj [("その番号", flds.2.1), ("タイトル", flds.2.2.1)]),
    ("structured_data", flds.2.2.2.1),
    ("tables", flds.2.2.2.2.1),
    ("validation", .obj [("schema_matched", .bool true),
      ("unmapped_fields", .arr []),
      ("gemini_notes", .str "")]),
    ("additional_fields", flds.2.2.2.2.2)]

/-- The Result Normalizer: build the `/analyze` success body from the
parsed model output, or fail as Python does on a non-dict value. -/
def buildAnalyzeResult (name : Option String) (fid : String) (p total : Int)
    (analyzed : Json) (now : String) : Except String Json :=
  match collectFields analyzed with
  | .error e => .error e
  | .ok flds => .ok (mkAnalyzeBody name fid p total flds now)

/-- `analyze_pdf_page`: the `/analyze` endpoint.  `download`, `pageCount`,
`convert`, `generate` (the model call on one image) and `parse`
(`json.loads`) are the external collaborators; `now` is the
`datetime.utcnow().isoformat()` reading. -/
def analyze_pdf_page {Pdf Img : Type} (req : AnalyzeReq) (envKey : Option String)
    (download : String → Except String (Pdf × FileMeta))
    (pageCount : Pdf → Except String Int)
    (convert : Pdf → Int → Except String (List Img))
    (generate : Img → Except String String)
    (parse : String → Except String Json)
    (now : String) : Nat × Json :=
  if pyFalsy req.fileId then (400, errBody "fileId is required")
  else if pyFalsy (pyOr req.geminiApiKey envKey) then (400, errBody "geminiApiKey is required")
  else
    match jsonAsInt (req.pageNumber.getD (Json.num 1)) with
    | none => (400, errBody "pageNumber must be a positive integer")
    | some p =>
      if p < 1 then (400, errBody "pageNumber must be a positive integer")
      else
        match download (req.fileId.getD "") with
        | .error e => (500, errBody e)
        | .ok (pdf, meta) =>
          match pageCount pdf with
          | .error e => (500, errBody e)
          | .ok total =>
            if p > total then
              (400, errBody ("Page " ++ toString p ++ " exceeds total pages (" ++ toString total ++ ")"))
            else
              match convert pdf p with
              | .error e => (500, errBody e)
              | .ok [] => (500, errBody ("Failed to convert page " ++ toString p))
              | .ok (img :: _) =>
                match generate img with
                | .error e => (500, errBody e)
                | .ok text =>
                  match parse (extract_json_from_response text) with
                  | .error e =>
                    (500, Json.obj [("success", .bool false),
                      ("error", .str ("JSON parse error: " ++ e)),
                      ("raw_response", .str (pyTake text 1000))])
                  | .ok analyzed =>
                    match collectFields analyzed with
                    | .error e => (500, errBody e)
                    | .ok flds => (200, mkAnalyzeBody meta.name (req.fileId.getD "") p total flds now)

/-! ## `/analyze-full` (src/main.py lines 362-483) -/

/-- Page-range resolution of `/analyze-full` (src/main.py lines 380-381,
398-399 and the `range(start_page, end_page + 1)` call): `endPage`
absent or JSON null means "to the last page"; an `endPage` beyond the
total is clamped to the total; non-numeric values raise `TypeError`
(propagated to the handler's `except`, messages abbreviated); `startPage`
defaults to 1 and is otherwise used unvalidated (a non-integer value
raises `TypeError` at the `range` call). -/
def resolveEnd (ep : Option Json) (total : Int) : Except String Int :=
  match ep with
  | none => .ok total
  | some Json.null => .ok total
  | some (Json.num n) => .ok (if n > total then total else n)
  | some (Json.bool b) =>
    .ok (if (if b then (1 : Int) else 0) > total then total else if b then 1 else 0)
  | some v =>
    .error ("TypeError: unsupported comparison between " ++ pyTypeName v ++ " and int")

def resolveStart (sp : Option Json) : Except String Int :=
  match sp with
  | none => .ok 1
  | some (Json.num n) => .ok n
  | some (Json.bool b) => .ok (if b then (1 : Int) else 0)
  | some v =>
    .error ("TypeError: " ++ pyTypeName v ++ " object cannot be interpreted as an integer")

def resolveRange (sp ep : Option Json) (total : Int) : Except String (Int × Int) :=
  match resolveEnd ep total with
  | .error e => .error e
  | .ok en =>
    match resolveStart sp with
    | .error e => .error e
    | .ok st => .ok (st, en)

/-- `range(s, e + 1)` over integers, as a list. -/
def intRange (s e : Int) : List Int :=
  (List.range (e + 1 - s).toNat).map (fun (i : Nat) => s + (i : Int))

/-- An entry of the batch `errors` list (src/main.py lines 419-422,
461-464). -/
def pageErrEntry (p : Int) (e : String) : Json :=
  Json.obj [("page", .num p), ("error", .str e)]

/-- The body of one iteration of the `/analyze-full` page loop
(src/main.py lines 407-464): rasterise, call the model, extract and
parse JSON, build the success entry; every exception and the empty image
list become an `errors` entry for this page (`.inr`), a success entry
goes to `results` (`.inl`). -/
def pageStep {Pdf Img : Type}
    (convert : Pdf → Int → Except String (List Img))
    (generate : Img → Except String String)
    (parse : String → Except String Json)
    (pdf : Pdf) (p : Int) : Sum Json Json :=
  match convert pdf p with
  | .error e => .inr (pageErrEntry p e)
  | .ok [] => .inr (pageErrEntry p "Failed to convert to image")
  | .ok (img :: _) =>
    match generate img with
    | .error e => .inr (pageErrEntry p e)
    | .ok text =>
      match parse (extract_json_from_response text) with
      | .error e => .inr (pageErrEntry p e)
      | .ok analyzed =>
        match pyGet analyzed "page_type" (.str "unknown") with
        | .error e => .inr (pageErrEntry p e)
        | .ok pt => .inl (Json.obj [("page_number", .num p), ("page_type", pt), ("data", analyzed)])

/-- Run the loop body over the page list, partitioning into the
`results` and `errors` lists (appends preserve page order). -/
def splitPages (f : Int → Sum Json Json) : List Int → List Json × List Json
  | [] => ([], [])
  | p :: ps =>
    let pr := splitPages f ps
    match f p with
    | .inl r => (r :: pr.1, pr.2)
    | .inr e => (pr.1, e :: pr.2)

/-- The success body of `/analyze-full` (src/main.py lines 466-479). -/
def batchBody (name : Option String) (fid : String) (total : Int)
    (results errors : List Json) (now : String) : Json :=
  Json.obj [("success", .bool true),
    ("metadata", .obj [("source_file", optStr name),
      ("file_id", .str fid),
      ("total_pages", .num total),
      ("processed_pages", .num (results.length : Int)),
      ("error_pages", .num (errors.length : Int)),
      ("processed_at", .str (now ++ "Z")),
      ("gemini_model", .str GEMINI_MODEL)]),
    ("results", .arr results),
    ("errors", .arr errors)]

/-- `analyze_pdf_full`: the `/analyze-full` endpoint (the batch
orchestrator). -/
def analyze_pdf_full {Pdf Img : Type} (req : FullReq) (envKey : Option String)
    (download : String → Except String (Pdf × FileMeta))
    (pageCount : Pdf → Except String Int)
    (convert : Pdf → Int → Except String (List Img))
    (generate : Img → Except String String)
    (parse : String → Except String Json)
    (now : String) : Nat × Json :=
  if pyFalsy req.fileId then (400, errBody "fileId is required")
  else if pyFalsy (pyOr req.geminiApiKey envKey) then (400, errBody "geminiApiKey is required")
  else
    match download (req.fileId.getD "") with
    | .error e => (500, errBody e)
    | .ok (pdf, meta) =>
      match pageCount pdf with
      | .error e => (500, errBody e)
      | .ok total =>
        match resolveRange req.startPage req.endPage total with
        | .error e => (500, errBody e)
        | .ok se =>
          let pr := splitPages (pageStep convert generate parse pdf) (intRange se.1 se.2)
          (200, batchBody meta.name (req.fileId.getD "") total pr.1 pr.2 now)

/-! ## Observation helpers for the theorems -/

/-- Page number of a success entry (`entry['page_number']`). -/
def succPage (j : Json) : Int :=
  match getField j "page_number" with
  | some (.num n) => n
  | _ => 0

/-- Page number of an error entry (`entry['page']`). -/
def errPage (j : Json) : Int :=
  match getField j "page" with
  | some (.num n) => n
  | _ => 0

/-- Does the entry carry page number `m` under field `key`? -/
def pageKeyIs (j : Json) (key : String) (m : Int) : Bool :=
  match getField j key with
  | some (.num n) => n == m
  | _ => false

/-- Null out `metadata.processed_at` in a response body: the masking used
to compare two runs "identical except for the processing timestamp". -/
def scrubMeta (j : Json) : Json :=
  match j with
  | .obj kvs => .obj (kvs.map (fun kv => if kv.1 = "processed_at" then (kv.1, Json.null) else kv))
  | j => j

/-- Apply `scrubMeta` to the `metadata` field of a response body. -/
def scrub (j : Json) : Json :=
  match j with
  | .obj kvs => .obj (kvs.map (fun kv => if kv.1 = "metadata" then (kv.1, scrubMeta kv.2) else kv))
  | j => j

/-! ## Spec-side fence patterns (for claim C3) -/

/-- Substring containment on character lists. -/
def containsSub (pat : List Char) : List Char → Bool
  | [] => pat.isEmpty
  | c :: cs => pat.isPrefixOf (c :: cs) || containsSub pat cs

/-- The fence pattern exactly as the spec words it: "optional json marker,
newline, content, newline, closing fence" — the marker is immediately
followed by the newline.  Decidable containment check. -/
def strictFenceAt (l : List Char) : Bool :=
  (('`' :: '`' :: '`' :: 'j' :: 's' :: 'o' :: 'n' :: '\n' :: []).isPrefixOf l
      && containsSub nlTicks (l.drop 8))
  || (('`' :: '`' :: '`' :: '\n' :: []).isPrefixOf l && containsSub nlTicks (l.drop 4))

/-- Does the string contain a fenced block in the spec's strict sense? -/
def hasStrictFence : List Char → Bool
  | [] => false
  | c :: cs => strictFenceAt (c :: cs) || hasStrictFence cs

/-- The spec's strict fence pattern as a predicate: an optional `json`
marker immediately followed by a newline, content, newline, closing
backticks (no whitespace between the marker and the newline). -/
def StrictFence (s : List Char) : Prop :=
  ∃ pre m inner post,
    (m = [] ∨ m = 'j' :: 's' :: 'o' :: 'n' :: []) ∧
    s = pre ++ (('`' :: '`' :: '`' :: []) ++ (m ++ ('\n' :: (inner ++ (nlTicks ++ post)))))

/-- The fence pattern the source's regex actually accepts: backticks,
optional `json` marker, an optional whitespace run, newline, content,
newline, closing backticks. -/
def LiberalFence (s : List Char) : Prop :=
  ∃ pre m w inner post,
    (m = [] ∨ m = 'j' :: 's' :: 'o' :: 'n' :: []) ∧ w.all pySpace = true ∧
    s = pre ++ (('`' :: '`' :: '`' :: []) ++ (m ++ (w ++ '\n' :: (inner ++ (nlTicks ++ post)))))

/-! ## Concrete stub collaborators (for witnesses and counterexamples) -/

/-- A document store stub: every id resolves to a one-token document
named `doc.pdf`. -/
def stubDownload : String → Except String (Unit × FileMeta) :=
  fun _ => .ok ((), ⟨some "doc.pdf"⟩)

/-- A page counter stub returning a fixed total. -/
def stubCount (n : Int) : Unit → Except String Int := fun _ => .ok n

/-- A rasterizer stub that succeeds on every page. -/
def stubConvertOk : Unit → Int → Except String (List Unit) := fun _ _ => .ok [()]

/-- A rasterizer stub that yields no image exactly on page `k`. -/
def stubConvertFailAt (k : Int) : Unit → Int → Except String (List Unit) :=
  fun _ p => if p = k then .ok [] else .ok [()]

/-- A rasterizer stub that yields no image on every page. -/
def stubConvertNone : Unit → Int → Except String (List Unit) := fun _ _ => .ok []

/-- A deterministic model stub returning a fixed text. -/
def stubGen (t : String) : Unit → Except String String := fun _ => .ok t

/-- A JSON parser stub accepting exactly the text `ok`. -/
def stubParse : String → Except String Json :=
  fun t => if t = "ok" then .ok (Json.obj [("page_type", .str "その1")]) else .error "bad"

/-- A JSON parser stub that always fails with a fixed message. -/
def stubParseErr (msg : String) : String → Except String Json := fun _ => .error msg

/-- A Base64 encoder stub. -/
def stubEncode : Unit → String := fun _ => "IMGB64"

/-! ## Lemmas about the batch page loop -/

theorem splitPages_length (f : Int → Sum Json Json) :
    ∀ ps : List Int, (splitPages f ps).1.length + (splitPages f ps).2.length = ps.length := by
  intro ps
  induction ps with
  | nil => rfl
  | cons p ps ih =>
    simp only [splitPages]
    cases f p <;> simp <;> omega

theorem splitPages_nil (f : Int → Sum Json Json) : splitPages f [] = ([], []) := rfl

theorem splitPages_perm (f : Int → Sum Json Json)
    (htagL : ∀ p r, f p = .inl r → getField r "page_number" = some (Json.num p))
    (htagR : ∀ p x, f p = .inr x → getField x "page" = some (Json.num p)) :
    ∀ ps : List Int,
      ((splitPages f ps).1.map succPage ++ (splitPages f ps).2.map errPage).Perm ps := by
  intro ps
  induction ps with
  | nil => simp [splitPages]
  | cons p ps ih =>
    simp only [splitPages]
    cases h : f p with
    | inl r =>
      have hr : succPage r = p := by simp [succPage, htagL p r h]
      simpa [hr] using ih.cons p
    | inr x =>
      have hx : errPage x = p := by simp [errPage, htagR p x h]
      simp only [List.map_cons]
      exact List.Perm.trans List.perm_middle (by rw [hx]; exact ih.cons p)

theorem splitPages_countP (f : Int → Sum Json Json)
    (htagL : ∀ p r, f p = .inl r → getField r "page_number" = some (Json.num p))
    (htagR : ∀ p x, f p = .inr x → getField x "page" = some (Json.num p)) (M : Int) :
    ∀ ps : List Int,
      (splitPages f ps).1.countP (fun j => pageKeyIs j "page_number" M) +
        (splitPages f ps).2.countP (fun j => pageKeyIs j "page" M) = ps.count M := by
  intro ps
  induction ps with
  | nil => rfl
  | cons p ps ih =>
    simp only [splitPages, List.count_cons]
    cases h : f p with
    | inl r =>
      have hr : pageKeyIs r "page_number" M = (p == M) := by
        simp [pageKeyIs, htagL p r h]
      simp only [List.countP_cons, hr]
      rcases Bool.eq_false_or_eq_true (p == M) with hb | hb <;>
        simp only [hb] <;> simp at hb <;> simp [hb] <;> omega
    | inr x =>
      have hx : pageKeyIs x "page" M = (p == M) := by
        simp [pageKeyIs, htagR p x h]
      simp only [List.countP_cons, hx]
      rcases Bool.eq_false_or_eq_true (p == M) with hb | hb <;>
        simp only [hb] <;> simp at hb <;> simp [hb] <;> omega

theorem splitPages_inr_mem (f : Int → Sum Json Json) :
    ∀ (ps : List Int) (p : Int) (x : Json), f p = .inr x → p ∈ ps →
      x ∈ (splitPages f ps).2 := by
  intro ps
  induction ps with
  | nil => intro p x _ hm; cases hm
  | cons q ps ih =>
    intro p x hf hm
    simp only [splitPages]
    rcases List.mem_cons.mp hm with rfl | hm'
    · rw [hf]; simp
    · cases hq : f q <;> simp [ih p x hf hm']

theorem length_intRange (s e : Int) : (intRange s e).length = (e + 1 - s).toNat := by
  rw [intRange, List.length_map, List.length_range]

theorem mem_intRange {m s e : Int} : m ∈ intRange s e ↔ s ≤ m ∧ m ≤ e := by
  unfold intRange
  rw [List.mem_map]
  constructor
  · rintro ⟨i, hi, rfl⟩
    rw [List.mem_range] at hi
    omega
  · rintro ⟨h1, h2⟩
    refine ⟨(m - s).toNat, ?_, ?_⟩
    · rw [List.mem_range]; omega
    · omega

theorem nodup_intRange (s e : Int) : (intRange s e).Nodup := by
  unfold intRange
  refine List.Nodup.map ?_ (List.nodup_range _)
  intro i j hij
  dsimp only at hij
  omega

theorem count_intRange {m s e : Int} (h1 : s ≤ m) (h2 : m ≤ e) :
    (intRange s e).count m = 1 :=
  List.count_eq_one_of_mem (nodup_intRange s e) (mem_intRange.mpr ⟨h1, h2⟩)

theorem intRange_eq_nil {s e : Int} (h : e < s) : intRange s e = [] := by
  have : (e + 1 - s).toNat = 0 := by omega
  simp [intRange, this]

theorem pageStep_inl_page {Pdf Img : Type}
    (convert : Pdf → Int → Except String (List Img))
    (generate : Img → Except String String)
    (parse : String → Except String Json)
    (pdf : Pdf) (p : Int) (r : Json)
    (h : pageStep convert generate parse pdf p = .inl r) :
    getField r "page_number" = some (Json.num p) := by
  unfold pageStep at h
  repeat' split at h
  all_goals try (exfalso; exact Sum.noConfusion h)
  all_goals injection h with h'
  all_goals subst h'
  all_goals simp [getField, lookupField]

theorem pageStep_inr_page {Pdf Img : Type}
    (convert : Pdf → Int → Except String (List Img))
    (generate : Img → Except String String)
    (parse : String → Except String Json)
    (pdf : Pdf) (p : Int) (x : Json)
    (h : pageStep convert generate parse pdf p = .inr x) :
    getField x "page" = some (Json.num p) := by
  unfold pageStep at h
  repeat' split at h
  all_goals try (exfalso; exact Sum.noConfusion h)
  all_goals injection h with h'
  all_goals subst h'
  all_goals simp [getField, lookupField, pageErrEntry]

/-- Once the request is well-formed and the document resolves, the batch
endpoint returns 200 with the body assembled from the loop partition. -/
theorem analyze_full_loop_eq {Pdf Img : Type} (req : FullReq) (envKey : Option String)
    (download : String → Except String (Pdf × FileMeta))
    (pageCount : Pdf → Except String Int)
    (convert : Pdf → Int → Except String (List Img))
    (generate : Img → Except String String)
    (parse : String → Except String Json)
    (now : String) (fid : String) (pdf : Pdf) (meta : FileMeta) (total s e : Int)
    (hfid : req.fileId = some fid) (hfid2 : fid ≠ "")
    (hkey : pyFalsy (pyOr req.geminiApiKey envKey) = false)
    (hdl : download fid = Except.ok (pdf, meta))
    (hpc : pageCount pdf = Except.ok total)
    (hres : resolveRange req.startPage req.endPage total = Except.ok (s, e)) :
    analyze_pdf_full req envKey download pageCount convert generate parse now =
      (200, batchBody meta.name fid total
        (splitPages (pageStep convert generate parse pdf) (intRange s e)).1
        (splitPages (pageStep convert generate parse pdf) (intRange s e)).2 now) := by
  have h1 : pyFalsy req.fileId = false := by
    rw [hfid]; simpa [pyFalsy] using hfid2
  unfold analyze_pdf_full
  rw [h1, hkey, hfid]
  simp only [Option.getD_some, Bool.false_eq_true, if_false, hdl, hpc, hres]

/-- C1: for every batch run reaching the page loop, the `results` and
`errors` lists together account for exactly one entry per page of the
resolved range `[s, e]`: their lengths sum to `e - s + 1` when `s ≤ e`,
their page numbers are disjoint, their union is exactly the contiguous
range, and both lists are empty when `s > e`. -/
theorem analyze_full_partition {Pdf Img : Type} (req : FullReq) (envKey : Option String)
    (download : String → Except String (Pdf × FileMeta))
    (pageCount : Pdf → Except String Int)
    (convert : Pdf → Int → Except String (List Img))
    (generate : Img → Except String String)
    (parse : String → Except String Json)
    (now : String) (fid : String) (pdf : Pdf) (meta : FileMeta) (total s e : Int)
    (hfid : req.fileId = some fid) (hfid2 : fid ≠ "")
    (hkey : pyFalsy (pyOr req.geminiApiKey envKey) = false)
    (hdl : download fid = Except.ok (pdf, meta))
    (hpc : pageCount pdf = Except.ok total)
    (hres : resolveRange req.startPage req.endPage total = Except.ok (s, e)) :
    ∃ rs es, splitPages (pageStep convert generate parse pdf) (intRange s e) = (rs, es) ∧
      analyze_pdf_full req envKey download pageCount convert generate parse now =
        (200, batchBody meta.name fid total rs es now) ∧
      (s ≤ e → (rs.length : Int) + (es.length : Int) = e - s + 1) ∧
      (e < s → rs = [] ∧ es = []) ∧
      (rs.map succPage ++ es.map errPage).Perm (intRange s e) ∧
      (∀ m : Int, m ∈ rs.map succPage → m ∉ es.map errPage) ∧
      (∀ m : Int, (m ∈ rs.map succPage ∨ m ∈ es.map errPage) ↔ (s ≤ m ∧ m ≤ e)) := by
  refine ⟨_, _, rfl,
    analyze_full_loop_eq req envKey download pageCount convert generate parse now
      fid pdf meta total s e hfid hfid2 hkey hdl hpc hres, ?_, ?_, ?_, ?_, ?_⟩
  · intro hse
    have hlen := splitPages_length (pageStep convert generate parse pdf) (intRange s e)
    rw [length_intRange] at hlen
    omega
  · intro hlt
    rw [intRange_eq_nil hlt]
    exact ⟨rfl, rfl⟩
  · exact splitPages_perm _ (fun p r h => pageStep_inl_page convert generate parse pdf p r h)
      (fun p x h => pageStep_inr_page convert generate parse pdf p x h) (intRange s e)
  · have hperm := splitPages_perm (pageStep convert generate parse pdf)
      (fun p r h => pageStep_inl_page convert generate parse pdf p r h)
      (fun p x h => pageStep_inr_page convert generate parse pdf p x h) (intRange s e)
    have hnodup := hperm.nodup_iff.mpr (nodup_intRange s e)
    rcases List.nodup_append.mp hnodup with ⟨_, _, hdisj⟩
    intro m hm1 hm2
    exact hdisj hm1 hm2
  · have hperm := splitPages_perm (pageStep convert generate parse pdf)
      (fun p r h => pageStep_inl_page convert generate parse pdf p r h)
      (fun p x h => pageStep_inr_page convert generate parse pdf p x h) (intRange s e)
    intro m
    rw [← List.mem_append, hperm.mem_iff, mem_intRange]

/-- Witness for C1: a two-page batch where page 2 fails rasterisation;
the partition invariants hold concretely. -/
theorem analyze_full_partition_witness :
    ∃ rs es, splitPages (pageStep (stubConvertFailAt 2) (stubGen "```json\nok\n```") stubParse ())
        (intRange 1 2) = (rs, es) ∧
      analyze_pdf_full ⟨some "f", some "k", some (Json.num 1), some (Json.num 2)⟩ none
          stubDownload (stubCount 2) (stubConvertFailAt 2) (stubGen "```json\nok\n```")
          stubParse "T" =
        (200, batchBody (some "doc.pdf") "f" 2 rs es "T") ∧
      ((1 : Int) ≤ 2 → (rs.length : Int) + (es.length : Int) = 2 - 1 + 1) ∧
      ((2 : Int) < 1 → rs = [] ∧ es = []) ∧
      (rs.map succPage ++ es.map errPage).Perm (intRange 1 2) ∧
      (∀ m : Int, m ∈ rs.map succPage → m ∉ es.map errPage) ∧
      (∀ m : Int, (m ∈ rs.map succPage ∨ m ∈ es.map errPage) ↔ ((1 : Int) ≤ m ∧ m ≤ 2)) :=
  analyze_full_partition ⟨some "f", some "k", some (Json.num 1), some (Json.num 2)⟩ none
    stubDownload (stubCount 2) (stubConvertFailAt 2) (stubGen "```json\nok\n```") stubParse "T"
    "f" () ⟨some "doc.pdf"⟩ 2 1 2 rfl (by decide) rfl rfl rfl rfl

/-- C2: a per-page failure on page `N` is recorded as an `errors` entry
and does not prevent processing of the other pages of the range: every
page of the range ends up in exactly one entry across the two lists. -/
theorem analyze_full_isolation {Pdf Img : Type} (req : FullReq) (envKey : Option String)
    (download : String → Except String (Pdf × FileMeta))
    (pageCount : Pdf → Except String Int)
    (convert : Pdf → Int → Except String (List Img))
    (generate : Img → Except String String)
    (parse : String → Except String Json)
    (now : String) (fid : String) (pdf : Pdf) (meta : FileMeta) (total s e N : Int)
    (errE : Json)
    (hfid : req.fileId = some fid) (hfid2 : fid ≠ "")
    (hkey : pyFalsy (pyOr req.geminiApiKey envKey) = false)
    (hdl : download fid = Except.ok (pdf, meta))
    (hpc : pageCount pdf = Except.ok total)
    (hres : resolveRange req.startPage req.endPage total = Except.ok (s, e))
    (hNs : s ≤ N) (hNe : N ≤ e)
    (hfail : pageStep convert generate parse pdf N = .inr errE) :
    ∃ rs es, splitPages (pageStep convert generate parse pdf) (intRange s e) = (rs, es) ∧
      analyze_pdf_full req envKey download pageCount convert generate parse now =
        (200, batchBody meta.name fid total rs es now) ∧
      errE ∈ es ∧
      (∀ M : Int, s ≤ M → M ≤ e →
        rs.countP (fun j => pageKeyIs j "page_number" M) +
          es.countP (fun j => pageKeyIs j "page" M) = 1) := by
  refine ⟨_, _, rfl,
    analyze_full_loop_eq req envKey download pageCount convert generate parse now
      fid pdf meta total s e hfid hfid2 hkey hdl hpc hres, ?_, ?_⟩
  · exact splitPages_inr_mem _ (intRange s e) N errE hfail (mem_intRange.mpr ⟨hNs, hNe⟩)
  · intro M h1 h2
    have hc := splitPages_countP (pageStep convert generate parse pdf)
      (fun p r h => pageStep_inl_page convert generate parse pdf p r h)
      (fun p x h => pageStep_inr_page convert generate parse pdf p x h) M (intRange s e)
    rw [count_intRange h1 h2] at hc
    exact hc

/-- Witness for C2: injecting a rasterisation failure on interior page 2
of a three-page batch. -/
theorem analyze_full_isolation_witness :
    ∃ rs es, splitPages (pageStep (stubConvertFailAt 2) (stubGen "```json\nok\n```") stubParse ())
        (intRange 1 3) = (rs, es) ∧
      analyze_pdf_full ⟨some "f", some "k", some (Json.num 1), some (Json.num 3)⟩ none
          stubDownload (stubCount 3) (stubConvertFailAt 2) (stubGen "```json\nok\n```")
          stubParse "T" =
        (200, batchBody (some "doc.pdf") "f" 3 rs es "T") ∧
      pageErrEntry 2 "Failed to convert to image" ∈ es ∧
      (∀ M : Int, (1 : Int) ≤ M → M ≤ 3 →
        rs.countP (fun j => pageKeyIs j "page_number" M) +
          es.countP (fun j => pageKeyIs j "page" M) = 1) :=
  analyze_full_isolation ⟨some "f", some "k", some (Json.num 1), some (Json.num 3)⟩ none
    stubDownload (stubCount 3) (stubConvertFailAt 2) (stubGen "```json\nok\n```") stubParse "T"
    "f" () ⟨some "doc.pdf"⟩ 3 1 3 2 (pageErrEntry 2 "Failed to convert to image")
    rfl (by decide) rfl rfl rfl rfl (by decide) (by decide) rfl

/-- C4: a batch run that reaches its page loop always returns status 200
with `success: true`, no matter how many pages failed; failures appear
only inside the `errors` list. -/
theorem analyze_full_always_success {Pdf Img : Type} (req : FullReq) (envKey : Option String)
    (download : String → Except String (Pdf × FileMeta))
    (pageCount : Pdf → Except String Int)
    (convert : Pdf → Int → Except String (List Img))
    (generate : Img → Except String String)
    (parse : String → Except String Json)
    (now : String) (fid : String) (pdf : Pdf) (meta : FileMeta) (total s e : Int)
    (hfid : req.fileId = some fid) (hfid2 : fid ≠ "")
    (hkey : pyFalsy (pyOr req.geminiApiKey envKey) = false)
    (hdl : download fid = Except.ok (pdf, meta))
    (hpc : pageCount pdf = Except.ok total)
    (hres : resolveRange req.startPage req.endPage total = Except.ok (s, e)) :
    ∃ rs es, splitPages (pageStep convert generate parse pdf) (intRange s e) = (rs, es) ∧
      analyze_pdf_full req envKey download pageCount convert generate parse now =
        (200, batchBody meta.name fid total rs es now) ∧
      getField (batchBody meta.name fid total rs es now) "success" = some (Json.bool true) := by
  refine ⟨_, _, rfl,
    analyze_full_loop_eq req envKey download pageCount convert generate parse now
      fid pdf meta total s e hfid hfid2 hkey hdl hpc hres, ?_⟩
  simp [batchBody, getField, lookupField]

/-- Witness for C4: a batch in which every page fails rasterisation still
returns 200 with `success: true`. -/
theorem analyze_full_always_success_witness :
    ∃ rs es, splitPages (pageStep stubConvertNone (stubGen "t") stubParse ())
        (intRange 1 2) = (rs, es) ∧
      analyze_pdf_full ⟨some "f", some "k", some (Json.num 1), some (Json.num 2)⟩ none
          stubDownload (stubCount 2) stubConvertNone (stubGen "t") stubParse "T" =
        (200, batchBody (some "doc.pdf") "f" 2 rs es "T") ∧
      getField (batchBody (some "doc.pdf") "f" 2 rs es "T") "success" =
        some (Json.bool true) :=
  analyze_full_always_success ⟨some "f", some "k", some (Json.num 1), some (Json.num 2)⟩ none
    stubDownload (stubCount 2) stubConvertNone (stubGen "t") stubParse "T"
    "f" () ⟨some "doc.pdf"⟩ 2 1 2 rfl (by decide) rfl rfl rfl rfl

/-- C8: when the requested end page is absent, JSON null, or larger than
the document's total page count, the batch resolves its end page to the
total and processes exactly the range `[s, total]`. -/
theorem analyze_full_end_resolution {Pdf Img : Type} (req : FullReq) (envKey : Option String)
    (download : String → Except String (Pdf × FileMeta))
    (pageCount : Pdf → Except String Int)
    (convert : Pdf → Int → Except String (List Img))
    (generate : Img → Except String String)
    (parse : String → Except String Json)
    (now : String) (fid : String) (pdf : Pdf) (meta : FileMeta) (total s : Int)
    (hfid : req.fileId = some fid) (hfid2 : fid ≠ "")
    (hkey : pyFalsy (pyOr req.geminiApiKey envKey) = false)
    (hdl : download fid = Except.ok (pdf, meta))
    (hpc : pageCount pdf = Except.ok total)
    (hstart : (req.startPage = none ∧ s = 1) ∨ req.startPage = some (Json.num s))
    (hend : req.endPage = none ∨ req.endPage = some Json.null ∨
      (∃ n, req.endPage = some (Json.num n) ∧ n > total)) :
    resolveRange req.startPage req.endPage total = Except.ok (s, total) ∧
      analyze_pdf_full req envKey download pageCount convert generate parse now =
        (200, batchBody meta.name fid total
          (splitPages (pageStep convert generate parse pdf) (intRange s total)).1
          (splitPages (pageStep convert generate parse pdf) (intRange s total)).2 now) := by
  have hres : resolveRange req.startPage req.endPage total = Except.ok (s, total) := by
    have he : resolveEnd req.endPage total = Except.ok total := by
      rcases hend with h | h | ⟨n, h, hn⟩
      · rw [h]; rfl
      · rw [h]; rfl
      · rw [h]; simp [resolveEnd, hn]
    have hs : resolveStart req.startPage = Except.ok s := by
      rcases hstart with ⟨h2, rfl⟩ | h2 <;> rw [h2] <;> rfl
    unfold resolveRange
    rw [he, hs]
  exact ⟨hres,
    analyze_full_loop_eq req envKey download pageCount convert generate parse now
      fid pdf meta total s total hfid hfid2 hkey hdl hpc hres⟩

/-- Witness for C8: a three-page document analysed with start 1 and no
end page processes exactly pages 1-3 with an empty error list. -/
theorem analyze_full_end_resolution_witness :
    resolveRange none none 3 = Except.ok (1, 3) ∧
      analyze_pdf_full ⟨some "f", some "k", none, none⟩ none
          stubDownload (stubCount 3) stubConvertOk (stubGen "```json\nok\n```")
          stubParse "T" =
        (200, batchBody (some "doc.pdf") "f" 3
          (splitPages (pageStep stubConvertOk (stubGen "```json\nok\n```") stubParse ())
            (intRange 1 3)).1
          (splitPages (pageStep stubConvertOk (stubGen "```json\nok\n```") stubParse ())
            (intRange 1 3)).2 "T") :=
  analyze_full_end_resolution ⟨some "f", some "k", none, none⟩ none
    stubDownload (stubCount 3) stubConvertOk (stubGen "```json\nok\n```") stubParse "T"
    "f" () ⟨some "doc.pdf"⟩ 3 1 rfl (by decide) rfl rfl rfl
    (Or.inl ⟨rfl, rfl⟩) (Or.inl rfl)

/-- C7: the Result Normalizer is total on missing optional fields: for
every parsed JSON object the build succeeds, and each absent optional
field surfaces as its documented default (`page_type` as the string
`unknown` in the metadata block, `page_title` as the empty string,
`structured_data`/`additional_fields` as empty mappings, `tables` as an
empty sequence). -/
theorem normalizer_total_defaults (kvs : List (String × Json)) (name : Option String)
    (fid : String) (p total : Int) (now : String) :
    ∃ body, buildAnalyzeResult name fid p total (Json.obj kvs) now = Except.ok body ∧
      (lookupField kvs "page_type" = none →
        getField2 body "metadata" "page_type" = some (Json.str "unknown")) ∧
      (lookupField kvs "page_title" = none →
        getField2 body "page_identification" "タイトル" = some (Json.str "")) ∧
      (lookupField kvs "structured_data" = none →
        getField body "structured_data" = some (Json.obj [])) ∧
      (lookupField kvs "tables" = none →
        getField body "tables" = some (Json.arr [])) ∧
      (lookupField kvs "additional_fields" = none →
        getField body "additional_fields" = some (Json.obj [])) := by
  refine ⟨_, rfl, ?_, ?_, ?_, ?_, ?_⟩ <;> intro h <;>
    simp [mkAnalyzeBody, collectFields, pyGet, getField2, getField, lookupField, h]

/-- Witness for C7: a minimal parsed object holding only `page_type`
normalizes with all remaining fields defaulted. -/
theorem normalizer_total_defaults_witness :
    ∃ body, buildAnalyzeResult (some "doc.pdf") "f" 1 3
        (Json.obj [("page_type", Json.str "その1")]) "T" = Except.ok body ∧
      getField2 body "page_identification" "タイトル" = some (Json.str "") ∧
      getField body "structured_data" = some (Json.obj []) ∧
      getField body "tables" = some (Json.arr []) ∧
      getField body "additional_fields" = some (Json.obj []) := by
  obtain ⟨b, hb, _, h2, h3, h4, h5⟩ := normalizer_total_defaults
    [("page_type", Json.str "その1")] (some "doc.pdf") "f" 1 3 "T"
  exact ⟨b, hb, h2 rfl, h3 rfl, h4 rfl, h5 rfl⟩

/-- C10: when the parsed output lacks `page_type`, the two blocks that
echo it use different defaults: the metadata block reports the string
`unknown` while the page-identification section marker is the empty
string, and these two values differ. -/
theorem page_type_dual_default (kvs : List (String × Json)) (name : Option String)
    (fid : String) (p total : Int) (now : String)
    (habs : lookupField kvs "page_type" = none) :
    ∃ body, buildAnalyzeResult name fid p total (Json.obj kvs) now = Except.ok body ∧
      getField2 body "metadata" "page_type" = some (Json.str "unknown") ∧
      getField2 body "page_identification" "その番号" = some (Json.str "") ∧
      Json.str "unknown" ≠ Json.str "" := by
  refine ⟨_, rfl, ?_, ?_, by simp⟩ <;>
    simp [mkAnalyzeBody, collectFields, pyGet, getField2, getField, lookupField, habs]

/-- Witness for C10: the empty parsed object. -/
theorem page_type_dual_default_witness :
    ∃ body, buildAnalyzeResult (some "doc.pdf") "f" 1 3 (Json.obj []) "T" = Except.ok body ∧
      getField2 body "metadata" "page_type" = some (Json.str "unknown") ∧
      getField2 body "page_identification" "その番号" = some (Json.str "") ∧
      Json.str "unknown" ≠ Json.str "" :=
  page_type_dual_default [] (some "doc.pdf") "f" 1 3 "T" rfl

/-- C9: analysing the same document and page twice against the same
deterministic collaborators yields the same status and, after masking
the `processed_at` timestamp, identical response bodies, whatever the
two wall-clock readings were. -/
theorem analyze_page_idempotent {Pdf Img : Type} (req : AnalyzeReq) (envKey : Option String)
    (download : String → Except String (Pdf × FileMeta))
    (pageCount : Pdf → Except String Int)
    (convert : Pdf → Int → Except String (List Img))
    (generate : Img → Except String String)
    (parse : String → Except String Json)
    (t1 t2 : String) :
    (analyze_pdf_page req envKey download pageCount convert generate parse t1).1 =
      (analyze_pdf_page req envKey download pageCount convert generate parse t2).1 ∧
    scrub (analyze_pdf_page req envKey download pageCount convert generate parse t1).2 =
      scrub (analyze_pdf_page req envKey download pageCount convert generate parse t2).2 := by
  unfold analyze_pdf_page
  repeat' split
  all_goals exact ⟨rfl, rfl⟩

/-- C5 (amended): the convert and single-page analyze operations reject a
page number that is not a Python int, or is less than 1, with a 400
input error before any download or page processing; the single-page
analyze operation additionally rejects a page number above the document
total with a 400 error naming the limit.  (The batch operation performs
no such validation, and the convert operation reports an out-of-range
page as a 404 after attempting conversion — see the counterexample.) -/
theorem page_validation_amended {Pdf Img : Type} (creq : ConvertReq) (areq : AnalyzeReq)
    (envKey : Option String)
    (download : String → Except String (Pdf × FileMeta))
    (pageCount : Pdf → Except String Int)
    (convert : Pdf → Int → Except String (List Img))
    (generate : Img → Except String String)
    (parse : String → Except String Json)
    (encode : Img → String) (now : String)
    (hcf : pyFalsy creq.fileId = false)
    (haf : pyFalsy areq.fileId = false)
    (hak : pyFalsy (pyOr areq.geminiApiKey envKey) = false) :
    (jsonAsInt (creq.pageNumber.getD (Json.num 1)) = none →
      convert_pdf_page creq download convert encode =
        (400, errBody "pageNumber must be a positive integer")) ∧
    (∀ p : Int, jsonAsInt (creq.pageNumber.getD (Json.num 1)) = some p → p < 1 →
      convert_pdf_page creq download convert encode =
        (400, errBody "pageNumber must be a positive integer")) ∧
    (jsonAsInt (areq.pageNumber.getD (Json.num 1)) = none →
      analyze_pdf_page areq envKey download pageCount convert generate parse now =
        (400, errBody "pageNumber must be a positive integer")) ∧
    (∀ p : Int, jsonAsInt (areq.pageNumber.getD (Json.num 1)) = some p → p < 1 →
      analyze_pdf_page areq envKey download pageCount convert generate parse now =
        (400, errBody "pageNumber must be a positive integer")) ∧
    (∀ (p total : Int) (fid : String) (pdf : Pdf) (meta : FileMeta),
      areq.fileId = some fid →
      jsonAsInt (areq.pageNumber.getD (Json.num 1)) = some p → 1 ≤ p →
      download fid = Except.ok (pdf, meta) → pageCount pdf = Except.ok total → total < p →
      analyze_pdf_page areq envKey download pageCount convert generate parse now =
        (400, errBody ("Page " ++ toString p ++ " exceeds total pages (" ++
          toString total ++ ")"))) := by
  refine ⟨?_, ?_, ?_, ?_, ?_⟩
  · intro h
    simp [convert_pdf_page, hcf, h]
  · intro p h hp
    simp [convert_pdf_page, hcf, h, hp]
  · intro h
    simp [analyze_pdf_page, haf, hak, h]
  · intro p h hp
    simp [analyze_pdf_page, haf, hak, h, hp]
  · intro p total fid pdf meta h1 h2 h3 h4 h5 h6
    have h3' : ¬ p < 1 := by omega
    have haf' : pyFalsy (some fid) = false := h1 ▸ haf
    simp [analyze_pdf_page, haf', hak, h1, h2, h3', h4, h5, h6]

/-- Witness for C5 (amended): a non-integer page number is rejected by
the convert operation, and page 5 of a 4-page document is rejected by
the single-page analyze operation with an error naming the limit. -/
theorem page_validation_amended_witness :
    convert_pdf_page ⟨some "f", some (Json.str "x")⟩ stubDownload stubConvertOk stubEncode =
      (400, errBody "pageNumber must be a positive integer") ∧
    analyze_pdf_page ⟨some "f", some (Json.num 5), some "k"⟩ none stubDownload (stubCount 4)
        stubConvertOk (stubGen "t") stubParse "T" =
      (400, errBody "Page 5 exceeds total pages (4)") := by
  obtain ⟨h1, _, _, _, h5⟩ := @page_validation_amended Unit Unit
    ⟨some "f", some (Json.str "x")⟩ ⟨some "f", some (Json.num 5), some "k"⟩ none
    stubDownload (stubCount 4) stubConvertOk (stubGen "t") stubParse stubEncode "T"
    rfl rfl rfl
  exact ⟨h1 rfl, h5 5 4 "f" () ⟨some "doc.pdf"⟩ rfl rfl (by decide) rfl rfl (by decide)⟩

/-- Counterexample for C5 as stated: the batch operation accepts the
non-positive start page 0 and completes with status 200 and overall
success instead of rejecting it with an input error (it even processes a
page 0); and the convert operation answers a page number beyond the end
of the document with a 404 not-found response that does not name the
total-page limit, not with a 400 input error. -/
theorem page_validation_counterexample :
    (analyze_pdf_full ⟨some "f", some "k", some (Json.num 0), none⟩ none stubDownload
        (stubCount 2) stubConvertOk (stubGen "```json\nok\n```") stubParse "T").1 = 200 ∧
    getField (analyze_pdf_full ⟨some "f", some "k", some (Json.num 0), none⟩ none stubDownload
        (stubCount 2) stubConvertOk (stubGen "```json\nok\n```") stubParse "T").2 "success" =
      some (Json.bool true) ∧
    convert_pdf_page ⟨some "f", some (Json.num 5)⟩ stubDownload (stubConvertFailAt 5)
        stubEncode =
      (404, errBody "Page 5 not found in PDF") :=
  ⟨rfl, rfl, rfl⟩

/-- C6 (amended): in the single-page analyze operation a parse failure
produces the 500 response carrying the parser's message and the first
1000 characters of the raw model response (never more); in the batch
loop the same failure produces an error entry carrying only the parser's
message. -/
theorem parse_error_payload {Pdf Img : Type} (areq : AnalyzeReq) (envKey : Option String)
    (download : String → Except String (Pdf × FileMeta))
    (pageCount : Pdf → Except String Int)
    (convert : Pdf → Int → Except String (List Img))
    (generate : Img → Except String String)
    (parse : String → Except String Json)
    (now : String) (fid : String) (pdf : Pdf) (meta : FileMeta) (p total : Int)
    (img : Img) (rest : List Img) (msg raw : String)
    (haf : areq.fileId = some fid) (haf2 : fid ≠ "")
    (hak : pyFalsy (pyOr areq.geminiApiKey envKey) = false)
    (hpage : jsonAsInt (areq.pageNumber.getD (Json.num 1)) = some p) (hp1 : 1 ≤ p)
    (hdl : download fid = Except.ok (pdf, meta))
    (hpc : pageCount pdf = Except.ok total) (hple : p ≤ total)
    (hconv : convert pdf p = Except.ok (img :: rest))
    (hgen : generate img = Except.ok raw)
    (hparse : parse (extract_json_from_response raw) = Except.error msg) :
    analyze_pdf_page areq envKey download pageCount convert generate parse now =
      (500, Json.obj [("success", Json.bool false),
        ("error", Json.str ("JSON parse error: " ++ msg)),
        ("raw_response", Json.str (pyTake raw 1000))]) ∧
    (pyTake raw 1000).length ≤ 1000 ∧
    pageStep convert generate parse pdf p = .inr (pageErrEntry p msg) := by
  have hf : pyFalsy (some fid) = false := by
    simp [pyFalsy, haf2]
  have h3' : ¬ p < 1 := by omega
  have h6' : ¬ p > total := by omega
  refine ⟨?_, ?_, ?_⟩
  · simp [analyze_pdf_page, hf, hak, haf, hpage, h3', hdl, hpc, h6', hconv, hgen, hparse]
  · show (raw.toList.take 1000).length ≤ 1000
    exact List.length_take_le 1000 raw.toList
  · simp [pageStep, hconv, hgen, hparse]

/-- Witness for C6 (amended): a concrete parse failure on page 1. -/
theorem parse_error_payload_witness :
    analyze_pdf_page ⟨some "f", some (Json.num 1), some "k"⟩ none stubDownload (stubCount 1)
        stubConvertOk (stubGen "RAWDATA") (stubParseErr "boom") "T" =
      (500, Json.obj [("success", Json.bool false),
        ("error", Json.str "JSON parse error: boom"),
        ("raw_response", Json.str "RAWDATA")]) ∧
    (pyTake "RAWDATA" 1000).length ≤ 1000 ∧
    pageStep stubConvertOk (stubGen "RAWDATA") (stubParseErr "boom") () 1 =
      .inr (pageErrEntry 1 "boom") :=
  @parse_error_payload Unit Unit ⟨some "f", some (Json.num 1), some "k"⟩ none
    stubDownload (stubCount 1) stubConvertOk (stubGen "RAWDATA") (stubParseErr "boom") "T"
    "f" () ⟨some "doc.pdf"⟩ 1 1 () [] "boom" "RAWDATA"
    rfl (by decide) rfl rfl (by decide) rfl rfl (by decide) rfl rfl rfl

/-- Counterexample for C6 as stated: in the batch, the per-page error of
a parse failure carries only the parser's message; the raw model
response (here `RAWDATA`) appears nowhere in the entry, and the entry
has no raw-response field at all. -/
theorem batch_parse_error_counterexample :
    analyze_pdf_full ⟨some "f", some "k", none, none⟩ none stubDownload (stubCount 1)
        stubConvertOk (stubGen "RAWDATA") (stubParseErr "boom") "T" =
      (200, batchBody (some "doc.pdf") "f" 1 [] [pageErrEntry 1 "boom"] "T") ∧
    getField (pageErrEntry 1 "boom") "error" = some (Json.str "boom") ∧
    getField (pageErrEntry 1 "boom") "raw_response" = none ∧
    containsSub (pyTake "RAWDATA" 1000).toList "boom".toList = false :=
  ⟨rfl, rfl, rfl, by decide⟩

/-! ## Soundness and completeness of the embedded fence matcher -/

theorem isPrefixOf_eq_true_iff (p b : List Char) :
    p.isPrefixOf b = true ↔ ∃ t, b = p ++ t := by
  rw [List.isPrefixOf_iff_prefix]
  constructor
  · rintro ⟨t, ht⟩; exact ⟨t, ht.symm⟩
  · rintro ⟨t, rfl⟩; exact ⟨t, rfl⟩

theorem findStop_sound : ∀ b cap post : List Char,
    findStop b = some (cap, post) → b = cap ++ (nlTicks ++ post) := by
  intro b
  induction b with
  | nil => intro cap post h; exact absurd h (by simp [findStop])
  | cons c cs ih =>
    intro cap post h
    unfold findStop at h
    split at h
    · rename_i hcond
      obtain ⟨t, ht⟩ := (isPrefixOf_eq_true_iff _ _).mp hcond
      simp only [nlTicks, List.cons_append, List.nil_append] at ht
      injection ht with h1 h2
      subst h1; subst h2
      injection h with hpair
      rw [Prod.mk.injEq] at hpair
      obtain ⟨hcap, hpost⟩ := hpair
      subst hcap; subst hpost
      rfl
    · cases hfs : findStop cs with
      | none => rw [hfs] at h; exact absurd h (by simp)
      | some pr =>
        rw [hfs] at h
        simp only [Option.map_some'] at h
        injection h with hpair
        rw [Prod.mk.injEq] at hpair
        obtain ⟨hcap, hpost⟩ := hpair
        subst hcap; subst hpost
        rw [ih pr.1 pr.2 (by rw [hfs])]
        rfl

theorem findStop_cons (c : Char) (cs : List Char) :
    findStop (c :: cs) = if nlTicks.isPrefixOf (c :: cs) then some ([], cs.drop 3)
      else (findStop cs).map (fun pr => (c :: pr.1, pr.2)) := rfl

theorem findStop_complete : ∀ u b v : List Char, b = u ++ (nlTicks ++ v) →
    (findStop b).isSome = true := by
  intro u
  induction u with
  | nil =>
    intro b v h
    rw [h]
    show (findStop ('\n' :: '`' :: '`' :: '`' :: v)).isSome = true
    have hpre : nlTicks.isPrefixOf ('\n' :: '`' :: '`' :: '`' :: v) = true :=
      (isPrefixOf_eq_true_iff _ _).mpr ⟨v, rfl⟩
    rw [findStop_cons, hpre]
    simp
  | cons a u ih =>
    intro b v h
    rw [h]
    show (findStop (a :: (u ++ (nlTicks ++ v)))).isSome = true
    rw [findStop_cons]
    cases hcond : nlTicks.isPrefixOf (a :: (u ++ (nlTicks ++ v)))
    · simp only [Bool.false_eq_true, if_false, Option.isSome_map']
      exact ih _ v rfl
    · simp

theorem matchTailD_sound : ∀ (j : Nat) (l cap post : List Char),
    matchTailD l j = some (cap, post) →
    ∃ j', j' ≤ j ∧ (l.take j').all pySpace = true ∧ l.get? j' = some '\n' ∧
      findStop (l.drop (j' + 1)) = some (cap, post) := by
  intro j
  induction j with
  | zero =>
    intro l cap post h
    rw [matchTailD] at h
    split at h
    · rename_i hc
      exact ⟨0, Nat.le_refl 0, rfl, eq_of_beq hc, h⟩
    · exact absurd h (by simp)
  | succ j ih =>
    intro l cap post h
    rw [matchTailD] at h
    split at h
    · rename_i r hatt
      split at hatt
      · rename_i hg
        rw [Bool.and_eq_true] at hg
        injection h with h'
        subst h'
        exact ⟨j + 1, Nat.le_refl _, hg.1, eq_of_beq hg.2, hatt⟩
      · exact absurd hatt (by simp)
    · obtain ⟨j', hle, hall, hget, hfs⟩ := ih l cap post h
      exact ⟨j', Nat.le_succ_of_le hle, hall, hget, hfs⟩

theorem matchTailD_complete : ∀ (j : Nat) (l : List Char) (j' : Nat), j' ≤ j →
    (l.take j').all pySpace = true → l.get? j' = some '\n' →
    (findStop (l.drop (j' + 1))).isSome = true → (matchTailD l j).isSome = true := by
  intro j
  induction j with
  | zero =>
    intro l j' hle hall hget hfs
    have hj : j' = 0 := Nat.le_zero.mp hle
    subst hj
    rw [matchTailD]
    have hc : (l.get? 0 == some '\n') = true := by rw [hget]; rfl
    rw [hc]
    simpa using hfs
  | succ j ih =>
    intro l j' hle hall hget hfs
    rw [matchTailD]
    rcases Nat.lt_or_ge j' (j + 1) with hlt | hge
    · cases hatt : (if (l.take (j + 1)).all pySpace && (l.get? (j + 1) == some '\n') then
          findStop (l.drop (j + 2)) else none) with
      | some r => simp [hatt]
      | none => simp only [hatt]; exact ih l j' (Nat.lt_succ_iff.mp hlt) hall hget hfs
    · have heq : j' = j + 1 := Nat.le_antisymm hle hge
      have hg : ((l.take (j + 1)).all pySpace && (l.get? (j + 1) == some '\n')) = true := by
        rw [← heq, hall, hget]; rfl
      rw [hg]
      have hfs' : (findStop (l.drop (j + 2))).isSome = true := by
        rw [show j + 2 = j' + 1 by omega]
        exact hfs
      obtain ⟨r, hr⟩ := Option.isSome_iff_exists.mp hfs'
      simp [hr]

theorem matchWs_sound (l cap post : List Char) (h : matchWs l = some (cap, post)) :
    ∃ w b, w.all pySpace = true ∧ l = w ++ '\n' :: b ∧ findStop b = some (cap, post) := by
  rw [matchWs] at h
  split at h
  · exact absurd h (by simp)
  · rename_i k hk
    obtain ⟨j', _, hall, hget, hfs⟩ := matchTailD_sound k l cap post h
    obtain ⟨hlt, hg⟩ := List.get?_eq_some.mp hget
    refine ⟨l.take j', l.drop (j' + 1), hall, ?_, hfs⟩
    conv_lhs => rw [← List.take_append_drop j' l]
    rw [List.drop_eq_getElem_cons hlt]
    congr 1
    rw [← hg]
    rfl

theorem matchWs_complete (l w b : List Char) (hw : w.all pySpace = true)
    (hl : l = w ++ '\n' :: b) (hfs : (findStop b).isSome = true) :
    (matchWs l).isSome = true := by
  subst hl
  have htw : ((w ++ '\n' :: b).takeWhile pySpace) = w ++ ('\n' :: b).takeWhile pySpace :=
    List.takeWhile_append_of_pos (by simpa [List.all_eq_true] using hw)
  have htwc : ('\n' :: b).takeWhile pySpace = '\n' :: b.takeWhile pySpace :=
    List.takeWhile_cons_of_pos (by decide)
  have hlen : ((w ++ '\n' :: b).takeWhile pySpace).length =
      (w.length + (b.takeWhile pySpace).length) + 1 := by
    rw [htw, htwc]
    simp only [List.length_append, List.length_cons]
    omega
  rw [matchWs, hlen]
  refine matchTailD_complete _ _ w.length (Nat.le_add_right _ _) ?_ ?_ ?_
  · rw [List.take_left]
    exact hw
  · rw [List.get?_eq_getElem?, List.getElem?_append_right (Nat.le_refl _)]
    simp
  · have hdrop : (w ++ '\n' :: b).drop (w.length + 1) = b := by
      have : w ++ '\n' :: b = (w ++ ['\n']) ++ b := by simp
      rw [this, List.drop_left' (by simp)]
    rw [hdrop]
    exact hfs

theorem orElse_isSome (x y : Option (List Char × List Char)) :
    ((x <|> y).isSome = true) ↔ (x.isSome = true ∨ y.isSome = true) := by
  cases x <;> simp

theorem matchAt_sound (l cap : List Char) (h : matchAt l = some cap) :
    ∃ m w post, (m = [] ∨ m = 'j' :: 's' :: 'o' :: 'n' :: []) ∧ w.all pySpace = true ∧
      l = ('`' :: '`' :: '`' :: []) ++ (m ++ (w ++ '\n' :: (cap ++ (nlTicks ++ post)))) := by
  rw [matchAt] at h
  split at h
  case isFalse => exact absurd h (by simp)
  case isTrue hticks =>
  obtain ⟨t3, ht3⟩ := (isPrefixOf_eq_true_iff _ _).mp hticks
  have hd3 : l.drop 3 = t3 := by rw [ht3]; exact List.drop_left' rfl
  obtain ⟨pr, hpr, hfst⟩ := Option.map_eq_some'.mp h
  obtain ⟨cap0, post0⟩ := pr
  dsimp only at hfst
  subst hfst
  cases hx : (if ('j' :: 's' :: 'o' :: 'n' :: []).isPrefixOf (l.drop 3) then
      matchWs (l.drop 7) else none) with
  | some pr0 =>
    rw [hx] at hpr
    simp only [Option.some_orElse] at hpr
    injection hpr with hpr'
    subst hpr'
    split at hx
    case isTrue hjson =>
      obtain ⟨t7, ht7⟩ := (isPrefixOf_eq_true_iff _ _).mp hjson
      have hd7 : l.drop 7 = t7 := by
        have h47 : l.drop 7 = (l.drop 3).drop 4 := by rw [List.drop_drop]
        rw [h47, ht7]
        exact List.drop_left' rfl
      obtain ⟨w, b, hw, hdec, hfs⟩ := matchWs_sound (l.drop 7) cap0 post0 hx
      have hb := findStop_sound b cap0 post0 hfs
      refine ⟨'j' :: 's' :: 'o' :: 'n' :: [], w, post0, Or.inr rfl, hw, ?_⟩
      rw [ht3, hd3.symm.trans ht7]
      rw [hd7] at hdec
      rw [hdec, hb]
    case isFalse => exact absurd hx (by simp)
  | none =>
    rw [hx] at hpr
    simp only [Option.none_orElse] at hpr
    obtain ⟨w, b, hw, hdec, hfs⟩ := matchWs_sound (l.drop 3) cap0 post0 hpr
    have hb := findStop_sound b cap0 post0 hfs
    refine ⟨[], w, post0, Or.inl rfl, hw, ?_⟩
    rw [ht3, ← hd3, hdec, hb]
    rfl

theorem matchAt_complete (l m w inner post : List Char)
    (hm : m = [] ∨ m = 'j' :: 's' :: 'o' :: 'n' :: []) (hw : w.all pySpace = true)
    (hl : l = ('`' :: '`' :: '`' :: []) ++ (m ++ (w ++ '\n' :: (inner ++ (nlTicks ++ post))))) :
    (matchAt l).isSome = true := by
  have hticks : ('`' :: '`' :: '`' :: []).isPrefixOf l = true :=
    (isPrefixOf_eq_true_iff _ _).mpr ⟨_, hl⟩
  have hd3 : l.drop 3 = m ++ (w ++ '\n' :: (inner ++ (nlTicks ++ post))) := by
    rw [hl]; exact List.drop_left' rfl
  rw [matchAt, hticks]
  simp only [if_true, Option.isSome_map']
  rcases hm with rfl | rfl
  · have hws : (matchWs (l.drop 3)).isSome = true := by
      refine matchWs_complete _ w (inner ++ (nlTicks ++ post)) hw ?_
        (findStop_complete inner _ post rfl)
      rw [hd3]; rfl
    rw [orElse_isSome]
    exact Or.inr hws
  · have hjson : ('j' :: 's' :: 'o' :: 'n' :: []).isPrefixOf (l.drop 3) = true := by
      rw [hd3]
      exact (isPrefixOf_eq_true_iff _ _).mpr ⟨_, rfl⟩
    have hd7 : l.drop 7 = w ++ '\n' :: (inner ++ (nlTicks ++ post)) := by
      have h47 : l.drop 7 = (l.drop 3).drop 4 := by rw [List.drop_drop]
      rw [h47, hd3]
      exact List.drop_left' rfl
    have hws : (matchWs (l.drop 7)).isSome = true :=
      matchWs_complete _ w (inner ++ (nlTicks ++ post)) hw hd7
        (findStop_complete inner _ post rfl)
    rw [hjson]
    simp only [if_true]
    rw [orElse_isSome]
    exact Or.inl hws

theorem searchFence_sound : ∀ l cap : List Char, searchFence l = some cap →
    ∃ pre rest, l = pre ++ rest ∧ matchAt rest = some cap := by
  intro l
  induction l with
  | nil => intro cap h; exact absurd h (by simp [searchFence])
  | cons c cs ih =>
    intro cap h
    rw [searchFence] at h
    cases hma : matchAt (c :: cs) with
    | some cap0 =>
      rw [hma] at h
      simp only [Option.some_orElse] at h
      injection h with h'
      subst h'
      exact ⟨[], c :: cs, rfl, hma⟩
    | none =>
      rw [hma] at h
      simp only [Option.none_orElse] at h
      obtain ⟨pre, rest, hcs, hm⟩ := ih cap h
      exact ⟨c :: pre, rest, by rw [hcs]; rfl, hm⟩

theorem searchFence_complete : ∀ pre rest : List Char, (matchAt rest).isSome = true →
    (searchFence (pre ++ rest)).isSome = true := by
  intro pre
  induction pre with
  | nil =>
    intro rest h
    cases rest with
    | nil => simp [matchAt] at h
    | cons c cs =>
      show (searchFence (c :: cs)).isSome = true
      rw [searchFence]
      cases hma : matchAt (c :: cs) with
      | some cap0 => simp
      | none => rw [hma] at h; exact absurd h (by simp)
  | cons c pre ih =>
    intro rest h
    show (searchFence (c :: (pre ++ rest))).isSome = true
    rw [searchFence]
    cases hma : matchAt (c :: (pre ++ rest)) with
    | some cap0 => simp
    | none =>
      simp only [Option.none_orElse]
      exact ih rest h

theorem containsSub_iff (p : List Char) (hp : p.isEmpty = false) :
    ∀ b, containsSub p b = true ↔ ∃ u v, b = u ++ (p ++ v) := by
  intro b
  induction b with
  | nil =>
    rw [containsSub]
    constructor
    · intro h; rw [h] at hp; cases hp
    · rintro ⟨u, v, huv⟩
      cases u with
      | nil =>
        cases p with
        | nil => cases hp
        | cons a as => exact absurd huv.symm (by simp)
      | cons a u' => exact absurd huv.symm (by simp)
  | cons c cs ih =>
    rw [containsSub]
    rw [Bool.or_eq_true]
    constructor
    · rintro (h | h)
      · obtain ⟨t, ht⟩ := (isPrefixOf_eq_true_iff _ _).mp h
        exact ⟨[], t, by rw [ht]; rfl⟩
      · obtain ⟨u, v, huv⟩ := ih.mp h
        exact ⟨c :: u, v, by rw [huv]; rfl⟩
    · rintro ⟨u, v, huv⟩
      cases u with
      | nil =>
        left
        exact (isPrefixOf_eq_true_iff _ _).mpr ⟨v, by simpa using huv⟩
      | cons a u' =>
        right
        simp only [List.cons_append] at huv
        injection huv with h1 h2
        exact ih.mpr ⟨u', v, h2⟩

theorem strictFenceAt_iff (l : List Char) : strictFenceAt l = true ↔
    ∃ m inner post, (m = [] ∨ m = 'j' :: 's' :: 'o' :: 'n' :: []) ∧
      l = ('`' :: '`' :: '`' :: []) ++ (m ++ ('\n' :: (inner ++ (nlTicks ++ post)))) := by
  rw [strictFenceAt, Bool.or_eq_true, Bool.and_eq_true, Bool.and_eq_true]
  constructor
  · rintro (⟨h1, h2⟩ | ⟨h1, h2⟩)
    · obtain ⟨t, ht⟩ := (isPrefixOf_eq_true_iff _ _).mp h1
      have hd : l.drop 8 = t := by rw [ht]; exact List.drop_left' rfl
      obtain ⟨u, v, huv⟩ := (containsSub_iff nlTicks rfl _).mp (hd ▸ h2)
      refine ⟨'j' :: 's' :: 'o' :: 'n' :: [], u, v, Or.inr rfl, ?_⟩
      rw [ht, huv]
      rfl
    · obtain ⟨t, ht⟩ := (isPrefixOf_eq_true_iff _ _).mp h1
      have hd : l.drop 4 = t := by rw [ht]; exact List.drop_left' rfl
      obtain ⟨u, v, huv⟩ := (containsSub_iff nlTicks rfl _).mp (hd ▸ h2)
      refine ⟨[], u, v, Or.inl rfl, ?_⟩
      rw [ht, huv]
      rfl
  · rintro ⟨m, inner, post, hm | hm, heq⟩ <;> subst hm
    · right
      constructor
      · exact (isPrefixOf_eq_true_iff _ _).mpr ⟨inner ++ (nlTicks ++ post), by rw [heq]; rfl⟩
      · have hd : l.drop 4 = inner ++ (nlTicks ++ post) := by
          rw [heq]
          show (('`' :: '`' :: '`' :: '\n' :: []) ++ (inner ++ (nlTicks ++ post))).drop 4 =
            inner ++ (nlTicks ++ post)
          exact List.drop_left' rfl
        rw [hd]
        exact (containsSub_iff nlTicks rfl _).mpr ⟨inner, post, rfl⟩
    · left
      constructor
      · exact (isPrefixOf_eq_true_iff _ _).mpr ⟨inner ++ (nlTicks ++ post), by rw [heq]; rfl⟩
      · have hd : l.drop 8 = inner ++ (nlTicks ++ post) := by
          rw [heq]
          show (('`' :: '`' :: '`' :: 'j' :: 's' :: 'o' :: 'n' :: '\n' :: []) ++
            (inner ++ (nlTicks ++ post))).drop 8 = inner ++ (nlTicks ++ post)
          exact List.drop_left' rfl
        rw [hd]
        exact (containsSub_iff nlTicks rfl _).mpr ⟨inner, post, rfl⟩

theorem hasStrictFence_iff : ∀ s : List Char, hasStrictFence s = true ↔ StrictFence s := by
  intro s
  induction s with
  | nil =>
    rw [hasStrictFence]
    constructor
    · intro h; cases h
    · rintro ⟨pre, m, inner, post, hm, heq⟩
      exact absurd heq.symm (by simp)
  | cons c cs ih =>
    rw [hasStrictFence, Bool.or_eq_true]
    constructor
    · rintro (h | h)
      · obtain ⟨m, inner, post, hm, heq⟩ := (strictFenceAt_iff _).mp h
        exact ⟨[], m, inner, post, hm, by rw [heq]; rfl⟩
      · obtain ⟨pre, m, inner, post, hm, heq⟩ := ih.mp h
        exact ⟨c :: pre, m, inner, post, hm, by rw [heq]; rfl⟩
    · rintro ⟨pre, m, inner, post, hm, heq⟩
      cases pre with
      | nil =>
        left
        exact (strictFenceAt_iff _).mpr ⟨m, inner, post, hm, by simpa using heq⟩
      | cons a pre' =>
        right
        simp only [List.cons_append] at heq
        injection heq with h1 h2
        exact ih.mpr ⟨pre', m, inner, post, hm, h2⟩

/-- C3 (amended): the Response Extractor never fails; if the input
contains a block of the shape backticks, optional `json` marker,
optional whitespace run, newline, content, newline, closing backticks
(the shape the source regex accepts, which also allows whitespace
between the marker and the newline), the result is the trimmed content
of such a block; otherwise it is the whole input trimmed. -/
theorem extract_json_amended (s : String) :
    (LiberalFence s.toList →
      ∃ pre m w inner post, (m = [] ∨ m = 'j' :: 's' :: 'o' :: 'n' :: []) ∧
        w.all pySpace = true ∧
        s.toList = pre ++ (('`' :: '`' :: '`' :: []) ++
          (m ++ (w ++ '\n' :: (inner ++ (nlTicks ++ post))))) ∧
        extract_json_from_response s = String.mk (pyStrip inner)) ∧
    (¬ LiberalFence s.toList →
      extract_json_from_response s = String.mk (pyStrip s.toList)) := by
  constructor
  · intro hlf
    obtain ⟨pre, m, w, inner, post, hm, hw, heq⟩ := hlf
    have hsome : (searchFence s.toList).isSome = true := by
      rw [heq]
      exact searchFence_complete pre _ (matchAt_complete _ m w inner post hm hw rfl)
    obtain ⟨cap, hcap⟩ := Option.isSome_iff_exists.mp hsome
    obtain ⟨pre2, rest, hl, hmm⟩ := searchFence_sound _ cap hcap
    obtain ⟨m2, w2, post2, hm2, hw2, hrest⟩ := matchAt_sound rest cap hmm
    refine ⟨pre2, m2, w2, cap, post2, hm2, hw2, ?_, ?_⟩
    · rw [hl, hrest]
    · have hcap' : searchFence s.data = some cap := hcap
      simp [extract_json_from_response, hcap']
  · intro hnl
    cases hcap : searchFence s.toList with
    | none =>
      have hcap' : searchFence s.data = none := hcap
      simp [extract_json_from_response, hcap']
    | some cap =>
      exfalso
      apply hnl
      obtain ⟨pre2, rest, hl, hmm⟩ := searchFence_sound _ cap hcap
      obtain ⟨m2, w2, post2, hm2, hw2, hrest⟩ := matchAt_sound rest cap hmm
      exact ⟨pre2, m2, w2, cap, post2, hm2, hw2, by rw [hl, hrest]⟩

/-- Witness for C3 (amended): a `json` fence whose marker is followed by
an ideographic space (U+3000) before the required newline — whitespace
the source's Unicode-aware `\s*` accepts — is extracted and trimmed. -/
theorem extract_json_amended_witness :
    ∃ pre m w inner post, (m = [] ∨ m = 'j' :: 's' :: 'o' :: 'n' :: []) ∧
      w.all pySpace = true ∧
      ("```json　\nhi\n```".toList = pre ++ (('`' :: '`' :: '`' :: []) ++
        (m ++ (w ++ '\n' :: (inner ++ (nlTicks ++ post)))))) ∧
      extract_json_from_response "```json　\nhi\n```" = String.mk (pyStrip inner) :=
  (extract_json_amended "```json　\nhi\n```").1
    ⟨[], 'j' :: 's' :: 'o' :: 'n' :: [], '　' :: [], 'h' :: 'i' :: [], [],
      Or.inr rfl, by decide, by decide⟩

/-- Counterexample for C3 as stated: the input that opens its fence with
a space before the newline contains no fenced block of the spec's strict
shape (marker immediately followed by a newline), so the claim requires
the whole trimmed input to be returned; the code's regex nevertheless
matches (its `\s*` absorbs the space) and returns `x`. -/
theorem extract_json_counterexample :
    ¬ StrictFence ("``` \nx\n```".toList) ∧
    extract_json_from_response "``` \nx\n```" = "x" ∧
    "x" ≠ String.mk (pyStrip ("``` \nx\n```".toList)) := by
  refine ⟨?_, by decide, by decide⟩
  intro hsf
  exact absurd ((hasStrictFence_iff _).mpr hsf) (by decide)
